import Mathlib

/-
Verification of the fragment composition and conditional-emission engine of
`create-tauri-app` (`packages/cli/src/template.rs`).

The Rust source is shallowly embedded below:
 * the closed enumerations `Template`, `Flavor` and the catalog functions
   `select_text`, `flavors`, `from_flavor`, `without_flavor` are translated
   directly (the `unreachable!()` branch of `select_text` becomes `none`);
 * the conditional file-name grammar of the `write_file` closure is embedded
   at the character-list level (`targetFileName`), together with faithful
   models of the Rust `str` operations it uses (`starts_with`, `contains`,
   `split` on a two-character pattern, `split('-')`);
 * `replace_vars` is embedded over `String` with a structurally recursive
   model of `str::replace`;
 * `render` is embedded as a pure state-passing pipeline over an
   association-list file system, parameterized by the external collaborators
   (embedded asset store, UTF-8 decoding/encoding, manifest parsing, and a
   possibly-failing write primitive modelling the real file system).
-/

set_option maxRecDepth 4096

/-! ## The closed enumerations (template.rs lines 17-36, 388-393) -/

inductive Template where
  | Vanilla
  | VanillaTs
  | Vue
  | VueTs
  | Svelte
  | SvelteTs
  | React
  | ReactTs
  | Solid
  | SolidTs
  | Yew
  | Leptos
  | Sycamore
  | Angular
  | Preact
  | PreactTs
  deriving DecidableEq, Repr

inductive Flavor where
  | JavaScript
  | TypeScript
  deriving DecidableEq, Repr

/-- The package-manager enumeration; the variants `Cargo`, `Pnpm`, `Yarn`,
`Npm`, `Bun` are the ones named in `template.rs` (its definition lives in
`package_manager.rs`, outside the provided sources). -/
inductive PackageManager where
  | Cargo
  | Pnpm
  | Yarn
  | Npm
  | Bun
  deriving DecidableEq, Repr

/-- Modelled from the spec: the display identifier of a package manager
(its `Display`/`to_string` form, used both in conditional-file flags and in
error listings). `package_manager.rs` is not under `src/`; the spec's
examples use the lowercase names `pnpm`, `npm`, `yarn`, `bun` and a native
`cargo` manager. -/
def PackageManager.displayIdent : PackageManager → String
  | .Cargo => "cargo"
  | .Pnpm => "pnpm"
  | .Yarn => "yarn"
  | .Npm => "npm"
  | .Bun => "bun"

/-- Modelled from the spec: the `run_cmd()` literal of a package manager
(`package_manager.rs` is not under `src/`). The in-repo test of
`template.rs` pins `Npm ↦ "npm run"` and `Pnpm ↦ "pnpm"`. -/
def PackageManager.runCmd : PackageManager → String
  | .Cargo => "cargo"
  | .Pnpm => "pnpm"
  | .Yarn => "yarn"
  | .Npm => "npm run"
  | .Bun => "bun"

/-- `Template::select_text` (template.rs lines 45-59); the `unreachable!()`
catch-all branch is embedded as `none`. -/
def Template.select_text : Template → Option String
  | .Vanilla => some "Vanilla"
  | .Vue => some "Vue - (https://vuejs.org)"
  | .Svelte => some "Svelte - (https://svelte.dev/)"
  | .React => some "React - (https://reactjs.org/)"
  | .Solid => some "Solid - (https://www.solidjs.com/)"
  | .Yew => some "Yew - (https://yew.rs/)"
  | .Leptos => some "Leptos - (https://github.com/leptos-rs/leptos)"
  | .Sycamore => some "Sycamore - (https://sycamore-rs.netlify.app/)"
  | .Angular => some "Angular - (https://angular.io/)"
  | .Preact => some "Preact - (https://preactjs.com/)"
  | _ => none

/-- `Template::flavors` (template.rs lines 137-153). -/
def Template.flavors (t : Template) (pkg_manager : PackageManager) :
    Option (List Flavor) :=
  match t with
  | .Vanilla =>
    if pkg_manager = PackageManager.Cargo then
      none
    else
      some [Flavor.TypeScript, Flavor.JavaScript]
  | .Vue => some [Flavor.TypeScript, Flavor.JavaScript]
  | .Svelte => some [Flavor.TypeScript, Flavor.JavaScript]
  | .React => some [Flavor.TypeScript, Flavor.JavaScript]
  | .Solid => some [Flavor.TypeScript, Flavor.JavaScript]
  | .Preact => some [Flavor.TypeScript, Flavor.JavaScript]
  | _ => none

/-- `Template::from_flavor` (template.rs lines 155-165). -/
def Template.from_flavor (t : Template) (flavor : Flavor) : Template :=
  match t, flavor with
  | .Vanilla, .TypeScript => .VanillaTs
  | .Vue, .TypeScript => .VueTs
  | .Svelte, .TypeScript => .SvelteTs
  | .React, .TypeScript => .ReactTs
  | .Solid, .TypeScript => .SolidTs
  | .Preact, .TypeScript => .PreactTs
  | _, _ => t

/-- `Template::without_flavor` (template.rs lines 167-177). -/
def Template.without_flavor : Template → Template
  | .VanillaTs => .Vanilla
  | .VueTs => .Vue
  | .SvelteTs => .Svelte
  | .ReactTs => .React
  | .SolidTs => .Solid
  | .PreactTs => .Preact
  | t => t

/-! ## Claims C5, C9, C10 -/

/-- C5 counterexample: the claim states that `flavors` returns a non-empty
flavor set only when the manager is not `Cargo`; but `Template::flavors`
only consults the package manager in its `Vanilla` arm, so
`flavors Vue Cargo` returns the full flavor set even though the manager is
the native one. -/
theorem c5_counterexample :
    ¬ (∀ (t : Template) (pm : PackageManager),
        (t.flavors pm).isSome = true → pm ≠ PackageManager.Cargo) := by
  intro h
  exact h Template.Vue PackageManager.Cargo (by decide) rfl

/-- C5 (corrected): `flavors` returns the `[TypeScript, JavaScript]` pair
for `Vanilla` iff the manager is not `Cargo`; for the other flavored
templates (`Vue`, `Svelte`, `React`, `Solid`, `Preact`) it returns the pair
regardless of the package manager; for every other template it returns
nothing. -/
theorem c5_flavors_characterization :
    ∀ (t : Template) (pm : PackageManager),
      t.flavors pm =
        (if t = Template.Vanilla then
          (if pm = PackageManager.Cargo then none
           else some [Flavor.TypeScript, Flavor.JavaScript])
         else if t ∈ [Template.Vue, Template.Svelte, Template.React,
                      Template.Solid, Template.Preact] then
          some [Flavor.TypeScript, Flavor.JavaScript]
         else none) := by
  intro t pm
  cases t <;> cases pm <;> rfl

/-- C9: for every (template, flavor) pair the template supports (its
`flavors` set under some manager contains the flavor),
`without_flavor (from_flavor t f) = t`; and for a template with no flavor
support under any manager, `from_flavor` is the identity. -/
theorem c9_flavor_roundtrip :
    (∀ (t : Template) (pm : PackageManager) (fl : List Flavor) (f : Flavor),
        t.flavors pm = some fl → f ∈ fl →
        (t.from_flavor f).without_flavor = t) ∧
    (∀ (t : Template) (f : Flavor),
        (∀ pm : PackageManager, t.flavors pm = none) →
        t.from_flavor f = t) := by
  constructor
  · intro t pm fl f hfl _
    cases t <;> cases pm <;> cases f <;> first
      | rfl
      | simp [Template.flavors] at hfl
  · intro t f h
    cases t <;> first
      | (cases f <;> rfl)
      | exact absurd (h PackageManager.Pnpm) (by simp [Template.flavors])

/-- C9 witness: concrete roundtrip for (Vanilla, TypeScript) under pnpm,
and `from_flavor` as a no-op on the flavorless `Yew`. -/
theorem c9_flavor_roundtrip_witness :
    (Template.Vanilla.from_flavor Flavor.TypeScript).without_flavor =
        Template.Vanilla ∧
    Template.Yew.from_flavor Flavor.TypeScript = Template.Yew := by
  refine ⟨?_, ?_⟩
  · exact c9_flavor_roundtrip.1 Template.Vanilla PackageManager.Pnpm
      [Flavor.TypeScript, Flavor.JavaScript] Flavor.TypeScript rfl (by decide)
  · exact c9_flavor_roundtrip.2 Template.Yew Flavor.TypeScript
      (by intro pm; cases pm <;> rfl)

/-- C10: `select_text` returns a label for every unflavored top-level
template and hits the `unreachable!()` branch (embedded as `none`) exactly
on the flavor-suffixed variants; so under the precondition that the
argument is not flavor-suffixed, the panic branch is unreachable. -/
theorem c10_select_text_domain :
    ∀ t : Template,
      t.select_text = none ↔
        t ∈ [Template.VanillaTs, Template.VueTs, Template.SvelteTs,
             Template.ReactTs, Template.SolidTs, Template.PreactTs] := by
  intro t
  cases t <;> simp [Template.select_text]

/-! ## Character-list models of the Rust `str` operations used by
`write_file` (template.rs lines 260-278)

File names are embedded as `List Char`.  `firstSplit pat s` returns the
text before and after the first occurrence of `pat` in `s` (the pattern
removed), or `none` when `pat` does not occur; it models one step of Rust's
`str::split` iterator and, via `Option.isSome`, `str::contains`. -/

def firstSplit (pat : List Char) : List Char → Option (List Char × List Char)
  | [] => if pat.isPrefixOf ([] : List Char) then some ([], []) else none
  | c :: rest =>
    if pat.isPrefixOf (c :: rest) then some ([], (c :: rest).drop pat.length)
    else (firstSplit pat rest).map fun p => (c :: p.1, p.2)

/-- Model of Rust `str::contains` for a non-empty pattern. -/
def hasSub (pat s : List Char) : Bool :=
  (firstSplit pat s).isSome

/-- First segment of Rust `str::split(pat)` (everything before the first
occurrence of `pat`, or the whole string when `pat` does not occur). -/
def seg0 (pat s : List Char) : List Char :=
  match firstSplit pat s with
  | none => s
  | some p => p.1

/-- Second segment of Rust `str::split(pat)` (the text between the first
and second occurrences), when a first occurrence exists. -/
def seg1 (pat s : List Char) : Option (List Char) :=
  match firstSplit pat s with
  | none => none
  | some p => some (seg0 pat p.2)

/-- Model of Rust `str::split('-')`: split on every `-`, keeping empty
segments, `[""]` for the empty string. -/
def splitOnChar (sep : Char) : List Char → List (List Char)
  | [] => [[]]
  | c :: rest =>
    if c = sep then [] :: splitOnChar sep rest
    else
      match splitOnChar sep rest with
      | [] => [[c]]
      | h :: t => (c :: h) :: t

/-- The `")%"` delimiter of the conditional-file grammar. -/
def delim : List Char := [')', '%']

/-- The conditional-name resolution of the `write_file` closure
(template.rs lines 251-287): the hard-coded renames, the suppression of
`_cta_manifest_`, and the `%(<flags>)%<finalName>` grammar.  `none` means
the file is skipped (or, for `_cta_manifest_`, suppressed); `some n` means
the file is written under basename `n`.  `pmStr` is the display identifier
of the current package manager. -/
def targetFileName (name pmStr : List Char) (alpha mobile : Bool) :
    Option (List Char) :=
  if name = "_gitignore".data then some ".gitignore".data
  else if name = "_Cargo.toml".data then some "Cargo.toml".data
  else if name = "_cta_manifest_".data then none
  else if ("%(".data).isPrefixOf name && hasSub delim (name.drop 1) then
    let stripped := name.drop 2
    let flags := splitOnChar '-' (seg0 delim stripped)
    match seg1 delim stripped with
    | none => none
    | some fname =>
      let for_stable := flags.contains "stable".data
      let for_alpha := flags.contains "alpha".data
      let for_mobile := flags.contains "mobile".data
      let flags := flags.filter
        (fun e => !(["stable".data, "alpha".data, "mobile".data].contains e))
      if ((for_stable && !alpha)
            || (for_alpha && alpha && !mobile)
            || (for_mobile && alpha && mobile)
            || (!for_stable && !for_alpha && !for_mobile))
          && (flags.contains pmStr || flags.isEmpty) then
        some fname
      else
        none
  else some name

/-! Spec-side eligibility predicates, written from the claim's words. -/

/-- Channel eligibility exactly as the spec words it: stable tag without
the alpha channel, alpha tag on the alpha channel without mobile, mobile
tag on the alpha channel with mobile, or no channel tag at all. -/
def channelEligible (flags : List (List Char)) (alpha mobile : Bool) : Bool :=
  let for_stable := flags.contains "stable".data
  let for_alpha := flags.contains "alpha".data
  let for_mobile := flags.contains "mobile".data
  (for_stable && !alpha)
    || (for_alpha && alpha && !mobile)
    || (for_mobile && alpha && mobile)
    || (!for_stable && !for_alpha && !for_mobile)

/-- Manager eligibility exactly as the spec words it: the non-channel flag
remainder is empty, or contains the manager's display identifier. -/
def managerEligible (flags : List (List Char)) (pmStr : List Char) : Bool :=
  let rem := flags.filter
    (fun e => !(["stable".data, "alpha".data, "mobile".data].contains e))
  rem.isEmpty || rem.contains pmStr

/-! Lemmas about `firstSplit` on the `")%"` delimiter. -/

lemma cons_ne_of_head {c d : Char} (h : c ≠ d) (xs ys : List Char) :
    c :: xs ≠ d :: ys := by
  intro he
  injection he with h1 _
  exact h h1

lemma firstSplit_append_isSome (a b : List Char) :
    (firstSplit delim (a ++ ')' :: '%' :: b)).isSome = true := by
  induction a with
  | nil => simp [firstSplit, delim, List.isPrefixOf]
  | cons c a ih =>
    by_cases hp : delim.isPrefixOf (c :: (a ++ ')' :: '%' :: b)) = true
    · simp [firstSplit, hp]
    · simp only [Bool.not_eq_true] at hp
      simp [firstSplit, hp, ih]

lemma firstSplit_decomp :
    ∀ (a b : List Char), firstSplit delim a = none →
      firstSplit delim (a ++ ')' :: '%' :: b) = some (a, b) := by
  intro a
  induction a with
  | nil =>
    intro b _
    simp [firstSplit, delim, List.isPrefixOf]
  | cons c a ih =>
    intro b h
    simp only [firstSplit] at h
    split at h
    · simp at h
    · rename_i hp
      simp only [Bool.not_eq_true] at hp
      have ha : firstSplit delim a = none := by
        cases hfa : firstSplit delim a with
        | none => rfl
        | some p => rw [hfa] at h; simp at h
      have hp2 : delim.isPrefixOf (c :: (a ++ ')' :: '%' :: b)) = false := by
        cases a with
        | nil => simp [delim, List.isPrefixOf]
        | cons d a' =>
          simp only [delim, List.isPrefixOf, List.cons_append] at hp ⊢
          exact hp
      simp [firstSplit, hp2, ih b ha]

lemma targetFileName_cond (flagsStr finalName pmStr : List Char)
    (alpha mobile : Bool)
    (hf : firstSplit delim flagsStr = none)
    (hn : firstSplit delim finalName = none) :
    targetFileName ('%' :: '(' :: (flagsStr ++ ')' :: '%' :: finalName))
        pmStr alpha mobile =
      if channelEligible (splitOnChar '-' flagsStr) alpha mobile
          && managerEligible (splitOnChar '-' flagsStr) pmStr then
        some finalName
      else none := by
  have hlit1 : "_gitignore".data = '_' :: "gitignore".data := rfl
  have hlit2 : "_Cargo.toml".data = '_' :: "Cargo.toml".data := rfl
  have hlit3 : "_cta_manifest_".data = '_' :: "cta_manifest_".data := rfl
  have hguard : (("%(".data).isPrefixOf
      ('%' :: '(' :: (flagsStr ++ ')' :: '%' :: finalName))
        && hasSub delim
            (('%' :: '(' :: (flagsStr ++ ')' :: '%' :: finalName)).drop 1))
      = true := by
    have h1 : ("%(".data).isPrefixOf
        ('%' :: '(' :: (flagsStr ++ ')' :: '%' :: finalName)) = true := by
      simp [List.isPrefixOf]
    have h2 : (firstSplit delim
        ('(' :: (flagsStr ++ ')' :: '%' :: finalName))).isSome = true := by
      have := firstSplit_append_isSome ('(' :: flagsStr) finalName
      simpa using this
    simp only [List.drop_succ_cons, List.drop_zero, h1, Bool.true_and, hasSub]
    exact h2
  rw [targetFileName]
  rw [if_neg (by rw [hlit1]; exact cons_ne_of_head (by decide) _ _)]
  rw [if_neg (by rw [hlit2]; exact cons_ne_of_head (by decide) _ _)]
  rw [if_neg (by rw [hlit3]; exact cons_ne_of_head (by decide) _ _)]
  rw [if_pos hguard]
  have hdrop : ('%' :: '(' :: (flagsStr ++ ')' :: '%' :: finalName)).drop 2
      = flagsStr ++ ')' :: '%' :: finalName := rfl
  rw [hdrop]
  have hseg0 : seg0 delim (flagsStr ++ ')' :: '%' :: finalName) = flagsStr := by
    simp [seg0, firstSplit_decomp _ _ hf]
  have hseg1 : seg1 delim (flagsStr ++ ')' :: '%' :: finalName)
      = some finalName := by
    simp [seg1, firstSplit_decomp _ _ hf, seg0, hn]
  simp only [hseg0, hseg1]
  have hor : ∀ (x a b : Bool) (v w : Option (List Char)),
      (if (x && (a || b)) = true then v else w)
        = (if (x && (b || a)) = true then v else w) := by
    intro x a b v w
    rw [Bool.or_comm]
  exact hor _ _ _ _ _

/-! ## Claims C1 and C4 -/

/-- C1: for a file name of the form `%(<flags>)%<finalName>` (where neither
the flag segment nor the final name contains the `")%"` delimiter), the
`write_file` name resolution includes the file with basename `finalName`
iff the spec's channel eligibility and manager eligibility both hold for
the flags split on `-`, and silently skips it (`none`) otherwise. -/
theorem c1_conditional_inclusion :
    ∀ (flagsStr finalName pmStr : List Char) (alpha mobile : Bool),
      firstSplit delim flagsStr = none →
      firstSplit delim finalName = none →
      targetFileName ('%' :: '(' :: (flagsStr ++ ')' :: '%' :: finalName))
          pmStr alpha mobile =
        if channelEligible (splitOnChar '-' flagsStr) alpha mobile
            && managerEligible (splitOnChar '-' flagsStr) pmStr then
          some finalName
        else none :=
  fun flagsStr finalName pmStr alpha mobile hf hn =>
    targetFileName_cond flagsStr finalName pmStr alpha mobile hf hn

/-- C1 witness: the spec's own example
`%(pnpm-npm-yarn-stable-alpha)%package.json` on the stable channel under
pnpm is included as `package.json`. -/
theorem c1_conditional_inclusion_witness :
    targetFileName
        ('%' :: '(' :: ("pnpm-npm-yarn-stable-alpha".data
            ++ ')' :: '%' :: "package.json".data))
        "pnpm".data false false = some "package.json".data :=
  (c1_conditional_inclusion "pnpm-npm-yarn-stable-alpha".data
      "package.json".data "pnpm".data false false (by decide) (by decide)).trans
    (by decide)

/-- C4 counterexample: the claim says a conditional file whose `finalName`
is `_cta_manifest_` is still suppressed after passing the gate; but the
literal `_cta_manifest_` match arm only inspects the original name, so
`%(stable)%_cta_manifest_` (stable channel, no manager flags) resolves to
`some "_cta_manifest_"` — it is written, not suppressed. -/
theorem c4_counterexample :
    ¬ (targetFileName "%(stable)%_cta_manifest_".data "npm".data false false
        = none) := by
  decide

/-- C4 (corrected): names not matching the conditional grammar pass through
unchanged except the hard-coded renames `_gitignore → .gitignore`,
`_Cargo.toml → Cargo.toml` and the suppression of a file literally named
`_cta_manifest_`; however a conditional file whose `finalName` is
`_cta_manifest_` is NOT suppressed: once it passes the conditional gate it
is written under the basename `_cta_manifest_`. -/
theorem c4_passthrough_and_manifest :
    ∀ (name pmStr : List Char) (alpha mobile : Bool),
      (name ≠ "_gitignore".data → name ≠ "_Cargo.toml".data →
        name ≠ "_cta_manifest_".data →
        (("%(".data).isPrefixOf name && hasSub delim (name.drop 1)) = false →
        targetFileName name pmStr alpha mobile = some name)
      ∧ targetFileName "_gitignore".data pmStr alpha mobile
          = some ".gitignore".data
      ∧ targetFileName "_Cargo.toml".data pmStr alpha mobile
          = some "Cargo.toml".data
      ∧ targetFileName "_cta_manifest_".data pmStr alpha mobile = none
      ∧ (∀ flagsStr : List Char, firstSplit delim flagsStr = none →
          (channelEligible (splitOnChar '-' flagsStr) alpha mobile
            && managerEligible (splitOnChar '-' flagsStr) pmStr) = true →
          targetFileName
              ('%' :: '(' :: (flagsStr ++ ')' :: '%' :: "_cta_manifest_".data))
              pmStr alpha mobile = some "_cta_manifest_".data) := by
  intro name pmStr alpha mobile
  refine ⟨?_, ?_, ?_, ?_, ?_⟩
  · intro h1 h2 h3 hg
    rw [targetFileName, if_neg h1, if_neg h2, if_neg h3,
      if_neg (by rw [hg]; exact Bool.false_ne_true)]
  · simp [targetFileName]
  · rw [targetFileName, if_neg (by decide), if_pos rfl]
  · rw [targetFileName, if_neg (by decide), if_neg (by decide), if_pos rfl]
  · intro flagsStr hf helig
    rw [targetFileName_cond flagsStr _ pmStr alpha mobile hf (by decide),
      if_pos helig]

/-- C4 witness: a plain name passes through verbatim, and the conditional
`%(stable)%_cta_manifest_` is written (under the stable channel, npm). -/
theorem c4_passthrough_and_manifest_witness :
    targetFileName "readme.md".data "npm".data false false
        = some "readme.md".data ∧
    targetFileName
        ('%' :: '(' :: ("stable".data ++ ')' :: '%' :: "_cta_manifest_".data))
        "npm".data false false = some "_cta_manifest_".data := by
  refine ⟨?_, ?_⟩
  · exact (c4_passthrough_and_manifest "readme.md".data "npm".data
      false false).1 (by decide) (by decide) (by decide) (by decide)
  · exact (c4_passthrough_and_manifest "readme.md".data "npm".data
      false false).2.2.2.2 "stable".data (by decide) (by decide)

/-! ## The variable substitution engine (template.rs lines 235, 289-316,
365-386)

Rust's `str::replace(pat, rep)` replaces every non-overlapping occurrence
of `pat`, left to right; equivalently it splits on `pat` and joins the
segments with `rep`.  `splitSub` is that full split, written with an
explicit fuel argument (one unit per occurrence consumed; `s.length` units
always suffice for the non-empty literal patterns used by the engine) so
that the definition is structurally recursive and kernel-evaluable. -/

def splitSubAux (pat : List Char) : Nat → List Char → List (List Char)
  | 0, s => [s]
  | fuel + 1, s =>
    match firstSplit pat s with
    | none => [s]
    | some p => p.1 :: splitSubAux pat fuel p.2

/-- Model of Rust `str::split` on a non-empty literal pattern: every
segment between consecutive occurrences. -/
def splitSub (pat s : List Char) : List (List Char) :=
  splitSubAux pat s.length s

/-- Model of Rust `str::replace` for a non-empty literal pattern. -/
def replaceAll (s pat rep : List Char) : List Char :=
  List.intercalate rep (splitSub pat s)

/-- `String`-level wrapper for `replaceAll`. -/
def strReplace (s pat rep : String) : String :=
  String.mk (replaceAll s.data pat.data rep.data)

/-- The `lib_name` computed by `Template::render` (template.rs line 235):
the package name with `-` replaced by `_`, suffixed `_lib`. -/
def libNameOf (package_name : String) : String :=
  strReplace package_name "-" "_" ++ "_lib"

/-- `Template::replace_vars` (template.rs lines 365-385).  The external
`Manifest::replace_vars` collaborator is abstracted as `mrv`. -/
def Template.replace_vars (mrv : String → String) (content : String)
    (lib_name package_name : String) (pkg_manager : PackageManager) :
    String :=
  strReplace
    (strReplace
      (strReplace
        (strReplace (mrv content) "~lib_name~" lib_name)
        "~package_name~" package_name)
      "~pkg_manager_run_command~" pkg_manager.runCmd)
    "~double-dash~"
    (if pkg_manager = PackageManager.Npm then " --" else "")

/-- Spec-side substitution schedule, written from the claim's words: the
four engine-provided replacement steps in their fixed order (after the
delegated manifest step). -/
def specSubstitutionSteps (package_name : String) (pm : PackageManager) :
    List (String × String) :=
  [("~lib_name~", libNameOf package_name),
   ("~package_name~", package_name),
   ("~pkg_manager_run_command~", pm.runCmd),
   ("~double-dash~", if pm = PackageManager.Npm then " --" else "")]

/-- Spec-side substitution: manifest step first, then each scheduled step
as a full-text replace-all over the result of the previous step. -/
def specSubstitute (mrv : String → String) (content package_name : String)
    (pm : PackageManager) : String :=
  (specSubstitutionSteps package_name pm).foldl
    (fun acc pr => strReplace acc pr.1 pr.2) (mrv content)

/-- The allow-list of basenames eligible for substitution
(template.rs lines 292-301). -/
def allowNames : List String :=
  ["Cargo.toml", "package.json", "tauri.conf.json", "main.rs",
   "vite.config.ts", "vite.config.js", "Trunk.toml", "angular.json"]

/-- The content transformation of the `write_file` closure (template.rs
lines 289-316): substitution only for allow-listed basenames whose bytes
decode as UTF-8 text, byte-identical copy otherwise.  `decode` and
`encode` abstract `String::from_utf8` and `str::as_bytes`. -/
def processData (decode : List Nat → Option String)
    (encode : String → List Nat) (mrv : String → String)
    (pkg_manager : PackageManager) (package_name : String)
    (target_file_name : String) (data : List Nat) : List Nat :=
  if allowNames.contains target_file_name then
    match decode data with
    | some content =>
      encode (Template.replace_vars mrv content (libNameOf package_name)
        package_name pkg_manager)
    | none => data
  else data

/-! ## Claims C3 and C7 -/

/-- C3: with the `lib_name` that `render` supplies, `replace_vars` equals
the spec's fixed substitution schedule folded left over the result of the
manifest step; and (concrete cascade) placeholder text introduced by the
manifest step is substituted by the later steps, including the `~double-dash~`
passthrough separator which becomes a literal `" --"` exactly for npm. -/
theorem c3_substitution_order :
    (∀ (mrv : String → String) (content package_name : String)
        (pm : PackageManager),
      Template.replace_vars mrv content (libNameOf package_name)
          package_name pm
        = specSubstitute mrv content package_name pm) ∧
    Template.replace_vars (fun s => strReplace s "~x~" "see ~lib_name~ and ~double-dash~end")
        "~x~" (libNameOf "my-app") "my-app" PackageManager.Npm
      = "see my_app_lib and  --end" := by
  constructor
  · intro mrv content package_name pm
    rfl
  · decide

/-- C7: for a basename outside the allow-list, or for content the UTF-8
decoder rejects, the bytes written equal the source bytes exactly. -/
theorem c7_binary_passthrough :
    ∀ (decode : List Nat → Option String) (encode : String → List Nat)
      (mrv : String → String) (pm : PackageManager)
      (package_name target_file_name : String) (data : List Nat),
      (allowNames.contains target_file_name = false →
        processData decode encode mrv pm package_name target_file_name data
          = data) ∧
      (decode data = none →
        processData decode encode mrv pm package_name target_file_name data
          = data) := by
  intro decode encode mrv pm package_name target_file_name data
  constructor
  · intro h
    have h' : ¬ target_file_name ∈ allowNames := by simpa using h
    simp [processData, h']
  · intro h
    simp [processData, h]

/-- C7 witness: an allow-listed basename with undecodable bytes, and a
non-allow-listed basename with decodable bytes, both pass through
unchanged. -/
theorem c7_binary_passthrough_witness :
    processData (fun _ => none) (fun _ => []) id PackageManager.Npm "app"
        "package.json" [0, 159, 146, 150] = [0, 159, 146, 150] ∧
    processData (fun _ => some "body ~package_name~") (fun _ => [])
        id PackageManager.Npm "app" "app.css" [1, 2, 3] = [1, 2, 3] := by
  refine ⟨?_, ?_⟩
  · exact (c7_binary_passthrough (fun _ => none) (fun _ => []) id
      PackageManager.Npm "app" "package.json" [0, 159, 146, 150]).2 rfl
  · exact (c7_binary_passthrough (fun _ => some "body ~package_name~")
      (fun _ => []) id PackageManager.Npm "app" "app.css" [1, 2, 3]).1
      (by decide)

/-! ## The render pipeline (template.rs lines 221-363)

The target directory is modelled as an association list from
target-relative paths (component lists) to byte lists; the most recent
write sits at the head.  The external collaborators are parameters:
`store` is the embedded asset store (`FRAGMENTS::get`), `decode`/`encode`
are `String::from_utf8`/`as_bytes`, `parse` is `Manifest::parse`, and
`fsw` is the possibly-failing filesystem write primitive
(`create_dir_all` + `fs::write`). -/

abbrev RPath := List String

abbrev FS := List (RPath × List Nat)

def lookupFS : FS → RPath → Option (List Nat)
  | [], _ => none
  | (q, d) :: rest, p => if q = p then some d else lookupFS rest p

/-- `fs::write`: truncate-write (overwrite). -/
def fsWrite (fs : FS) (p : RPath) (d : List Nat) : FS :=
  (p, d) :: fs

/-- `OpenOptions::new().append(true).create(true)` + `write_all`: append to
the existing content, creating the file when absent. -/
def fsAppend (fs : FS) (p : RPath) (d : List Nat) : FS :=
  (p, (lookupFS fs p).getD [] ++ d) :: fs

/-- The per-render context captured by the `write_file` closure. -/
structure RenderCtx where
  decode : List Nat → Option String
  encode : String → List Nat
  mrv : String → String
  pkg_manager : PackageManager
  package_name : String
  alpha : Bool
  mobile : Bool

/-- One invocation of the `write_file` closure (template.rs lines 237-322)
on one fragment entry `(virtual path components, bytes)`: drop the zone
component, resolve the conditional name, transform the content, and write
`parent/target_file_name` through `fsw`. -/
def writeFileStep (fsw : FS → RPath → List Nat → Except String FS)
    (ctx : RenderCtx) (fs : FS) (entry : List String × List Nat) :
    Except String FS :=
  let p := entry.1.drop 1
  match p.getLast? with
  | none => .ok fs
  | some file_name =>
    match targetFileName file_name.data ctx.pkg_manager.displayIdent.data
        ctx.alpha ctx.mobile with
    | none => .ok fs
    | some target_file_name =>
      let data := processData ctx.decode ctx.encode ctx.mrv ctx.pkg_manager
        ctx.package_name (String.mk target_file_name) entry.2
      fsw fs (p.dropLast ++ [String.mk target_file_name]) data

/-- Sequential `for file in ... { write_file(&file)? }`: runs the step on
each entry in order, stopping at the first error; returns the disk state
reached together with the error, if any. -/
def runFiles (step : FS → (List String × List Nat) → Except String FS) :
    FS → List (List String × List Nat) → FS × Option String
  | fs, [] => (fs, none)
  | fs, e :: rest =>
    match step fs e with
    | .ok fs' => runFiles step fs' rest
    | .error err => (fs, some err)

/-- The external `Manifest` collaborator, reduced to what the renderer
consumes: its variable substitution and its ordered extra-files list. -/
structure ManifestM where
  replaceVars : String → String
  files : List (String × RPath)

/-- The extra-files pass (template.rs lines 347-360): for each
`(src, dest)` pair in manifest order, fetch `_assets_/<src>` (fatal when
absent) and append its bytes to `dest`. -/
def appendPass (store : String → Option (List Nat)) :
    FS → List (String × RPath) → FS × Option String
  | fs, [] => (fs, none)
  | fs, (src, dest) :: rest =>
    match store ("_assets_/" ++ src) with
    | none => (fs, some ("Failed to get asset file bytes: " ++ src))
    | some data => appendPass store (fsAppend fs dest data) rest

/-- `Template::render` (template.rs lines 221-363): manifest marker fetch,
UTF-8 decode and parse; the `_base_` zone pass; the `fragment-<id>` zone
pass; the manifest extra-files append pass.  The first failure is returned
with the disk state reached at that point. -/
def renderModel (store : String → Option (List Nat))
    (decode : List Nat → Option String) (encode : String → List Nat)
    (parse : String → Bool → Option ManifestM)
    (fsw : FS → RPath → List Nat → Except String FS)
    (tmplId : String) (pkg_manager : PackageManager)
    (package_name : String) (alpha mobile : Bool)
    (baseFiles tmplFiles : List (List String × List Nat))
    (fs0 : FS) : FS × Option String :=
  match store ("fragment-" ++ tmplId ++ "/_cta_manifest_") with
  | none => (fs0, some "Failed to get manifest bytes")
  | some manifest_bytes =>
    match decode manifest_bytes with
    | none => (fs0, some "invalid utf-8 sequence")
    | some manifest_str =>
      match parse manifest_str mobile with
      | none => (fs0, some "manifest parse failure")
      | some manifest =>
        let step := writeFileStep fsw
          ⟨decode, encode, manifest.replaceVars, pkg_manager, package_name,
            alpha, mobile⟩
        match runFiles step fs0 baseFiles with
        | (fs1, some e) => (fs1, some e)
        | (fs1, none) =>
          match runFiles step fs1 tmplFiles with
          | (fs2, some e) => (fs2, some e)
          | (fs2, none) => appendPass store fs2 manifest.files

/-- The infallible write primitive used to reason about renders whose
filesystem operations succeed. -/
def pureFsw : FS → RPath → List Nat → Except String FS :=
  fun fs p d => .ok (fsWrite fs p d)

/-- The write decision of one `write_file` invocation: the target path and
the bytes written, or `none` when the entry is skipped. -/
def resolveEntry (ctx : RenderCtx) (entry : List String × List Nat) :
    Option (RPath × List Nat) :=
  let p := entry.1.drop 1
  match p.getLast? with
  | none => none
  | some file_name =>
    match targetFileName file_name.data ctx.pkg_manager.displayIdent.data
        ctx.alpha ctx.mobile with
    | none => none
    | some target_file_name =>
      some (p.dropLast ++ [String.mk target_file_name],
        processData ctx.decode ctx.encode ctx.mrv ctx.pkg_manager
          ctx.package_name (String.mk target_file_name) entry.2)

/-- One `write_file` invocation with the infallible write primitive, as a
plain state transformer. -/
def stepPure (ctx : RenderCtx) (fs : FS)
    (entry : List String × List Nat) : FS :=
  match resolveEntry ctx entry with
  | none => fs
  | some pd => fsWrite fs pd.1 pd.2

/-- One extra-files append with the asset bytes already fetched. -/
def appendStep (store : String → Option (List Nat)) (fs : FS)
    (sd : String × RPath) : FS :=
  fsAppend fs sd.2 ((store ("_assets_/" ++ sd.1)).getD [])

lemma lookupFS_fsWrite_self (fs : FS) (p : RPath) (d : List Nat) :
    lookupFS (fsWrite fs p d) p = some d := by
  simp [fsWrite, lookupFS]

lemma lookupFS_fsWrite_ne (fs : FS) (q p : RPath) (d : List Nat)
    (h : q ≠ p) : lookupFS (fsWrite fs q d) p = lookupFS fs p := by
  simp [fsWrite, lookupFS, h]

lemma lookupFS_fsAppend_self (fs : FS) (p : RPath) (d : List Nat) :
    lookupFS (fsAppend fs p d) p = some ((lookupFS fs p).getD [] ++ d) := by
  simp [fsAppend, lookupFS]

lemma lookupFS_fsAppend_ne (fs : FS) (q p : RPath) (d : List Nat)
    (h : q ≠ p) : lookupFS (fsAppend fs q d) p = lookupFS fs p := by
  simp [fsAppend, lookupFS, h]

lemma writeFileStep_pure (ctx : RenderCtx) (fs : FS)
    (e : List String × List Nat) :
    writeFileStep pureFsw ctx fs e = .ok (stepPure ctx fs e) := by
  cases hl : e.1.tail.getLast? with
  | none => simp [writeFileStep, stepPure, resolveEntry, List.drop_one, hl]
  | some fn =>
    cases ht : targetFileName fn.data ctx.pkg_manager.displayIdent.data
        ctx.alpha ctx.mobile with
    | none =>
      simp [writeFileStep, stepPure, resolveEntry, List.drop_one, hl, ht]
    | some tn =>
      simp [writeFileStep, stepPure, resolveEntry, pureFsw, List.drop_one,
        hl, ht]

lemma runFiles_pure (ctx : RenderCtx) :
    ∀ (es : List (List String × List Nat)) (fs : FS),
      runFiles (writeFileStep pureFsw ctx) fs es
        = (es.foldl (stepPure ctx) fs, none) := by
  intro es
  induction es with
  | nil => intro fs; rfl
  | cons e es ih =>
    intro fs
    simp [runFiles, writeFileStep_pure ctx fs e, ih, List.foldl_cons]

lemma runFiles_append (step : FS → (List String × List Nat) → Except String FS) :
    ∀ (xs ys : List (List String × List Nat)) (fs : FS),
      runFiles step fs (xs ++ ys)
        = match runFiles step fs xs with
          | (f, none) => runFiles step f ys
          | (f, some e) => (f, some e) := by
  intro xs
  induction xs with
  | nil => intro ys fs; rfl
  | cons x xs ih =>
    intro ys fs
    simp only [List.cons_append, runFiles]
    cases step fs x with
    | ok fs' => exact ih ys fs'
    | error err => rfl

lemma lookup_foldl_no_write (ctx : RenderCtx) (p : RPath) :
    ∀ (es : List (List String × List Nat)) (fs : FS),
      (∀ e ∈ es, ∀ q d, resolveEntry ctx e = some (q, d) → q ≠ p) →
      lookupFS (es.foldl (stepPure ctx) fs) p = lookupFS fs p := by
  intro es
  induction es with
  | nil => intro fs _; rfl
  | cons e es ih =>
    intro fs h
    rw [List.foldl_cons, ih _ (fun x hx => h x (List.mem_cons_of_mem e hx))]
    cases hr : resolveEntry ctx e with
    | none => simp [stepPure, hr]
    | some pd =>
      have hne : pd.1 ≠ p := h e (List.mem_cons_self e es) pd.1 pd.2 (by rw [hr])
      simp [stepPure, hr, lookupFS_fsWrite_ne _ _ _ _ hne]

lemma lookup_foldl_last (ctx : RenderCtx) (p : RPath) (dt : List Nat)
    (et : List String × List Nat) (pre post : List (List String × List Nat))
    (fs : FS) (h1 : resolveEntry ctx et = some (p, dt))
    (h2 : ∀ e ∈ post, ∀ q d, resolveEntry ctx e = some (q, d) → q ≠ p) :
    lookupFS ((pre ++ et :: post).foldl (stepPure ctx) fs) p = some dt := by
  rw [List.foldl_append, List.foldl_cons]
  have hstep : stepPure ctx (pre.foldl (stepPure ctx) fs) et
      = fsWrite (pre.foldl (stepPure ctx) fs) p dt := by
    simp [stepPure, h1]
  rw [hstep, lookup_foldl_no_write ctx p post _ h2, lookupFS_fsWrite_self]

lemma appendPass_eq_fold (store : String → Option (List Nat)) :
    ∀ (files : List (String × RPath)) (fs : FS),
      (∀ sd ∈ files, (store ("_assets_/" ++ sd.1)).isSome = true) →
      appendPass store fs files = (files.foldl (appendStep store) fs, none) := by
  intro files
  induction files with
  | nil => intro fs _; rfl
  | cons sd rest ih =>
    intro fs h
    obtain ⟨src, dest⟩ := sd
    have hs : (store ("_assets_/" ++ src)).isSome = true :=
      h (src, dest) (List.mem_cons_self _ _)
    cases hst : store ("_assets_/" ++ src) with
    | none => rw [hst] at hs; simp at hs
    | some data =>
      simp only [appendPass, hst, List.foldl_cons]
      rw [ih _ (fun x hx => h x (List.mem_cons_of_mem _ hx))]
      simp [appendStep, hst]

lemma appendPass_no_target (store : String → Option (List Nat)) (p : RPath) :
    ∀ (files : List (String × RPath)) (fs : FS),
      (∀ sd ∈ files, sd.2 ≠ p) →
      lookupFS (appendPass store fs files).1 p = lookupFS fs p := by
  intro files
  induction files with
  | nil => intro fs _; rfl
  | cons sd rest ih =>
    intro fs h
    obtain ⟨src, dest⟩ := sd
    cases hst : store ("_assets_/" ++ src) with
    | none => simp [appendPass, hst]
    | some data =>
      simp only [appendPass, hst]
      rw [ih _ (fun x hx => h x (List.mem_cons_of_mem _ hx))]
      exact lookupFS_fsAppend_ne _ _ _ _ (h (src, dest) (List.mem_cons_self _ _))

lemma lookup_fold_appendStep_no_target (store : String → Option (List Nat))
    (p : RPath) :
    ∀ (files : List (String × RPath)) (fs : FS),
      (∀ sd ∈ files, sd.2 ≠ p) →
      lookupFS (files.foldl (appendStep store) fs) p = lookupFS fs p := by
  intro files
  induction files with
  | nil => intro fs _; rfl
  | cons sd rest ih =>
    intro fs h
    rw [List.foldl_cons, ih _ (fun x hx => h x (List.mem_cons_of_mem _ hx))]
    exact lookupFS_fsAppend_ne _ _ _ _ (h sd (List.mem_cons_self _ _))

/-! ## Pipeline lemmas and claims C2, C6, C8 -/

/-- C2: when a base-zone entry and a template-zone entry resolve to the
same target-relative path `p` (and no later template entry or manifest
extra file touches `p`), the rendered tree holds the data written for the
template-zone entry: the template pass runs after the base pass and
truncate-writes the same path.  For a basename outside the substitution
allow-list that data is the template-zone file's bytes verbatim (shown by
the witness). -/
theorem c2_template_zone_overrides_base :
    ∀ (store : String → Option (List Nat)) (decode : List Nat → Option String)
      (encode : String → List Nat) (parse : String → Bool → Option ManifestM)
      (tmplId : String) (pm : PackageManager) (pkg : String)
      (alpha mobile : Bool)
      (baseFiles tmplFiles pre post : List (List String × List Nat))
      (fs0 : FS) (manifest_bytes : List Nat) (manifest_str : String)
      (manifest : ManifestM) (p : RPath) (eb et : List String × List Nat)
      (db dt : List Nat),
      store ("fragment-" ++ tmplId ++ "/_cta_manifest_") = some manifest_bytes →
      decode manifest_bytes = some manifest_str →
      parse manifest_str mobile = some manifest →
      eb ∈ baseFiles →
      resolveEntry ⟨decode, encode, manifest.replaceVars, pm, pkg, alpha,
        mobile⟩ eb = some (p, db) →
      tmplFiles = pre ++ et :: post →
      resolveEntry ⟨decode, encode, manifest.replaceVars, pm, pkg, alpha,
        mobile⟩ et = some (p, dt) →
      (∀ e ∈ post, ∀ q d,
        resolveEntry ⟨decode, encode, manifest.replaceVars, pm, pkg, alpha,
          mobile⟩ e = some (q, d) → q ≠ p) →
      (∀ sd ∈ manifest.files, sd.2 ≠ p) →
      lookupFS (renderModel store decode encode parse pureFsw tmplId pm pkg
        alpha mobile baseFiles tmplFiles fs0).1 p = some dt := by
  intro store decode encode parse tmplId pm pkg alpha mobile baseFiles
    tmplFiles pre post fs0 manifest_bytes manifest_str manifest p eb et db dt
    h1 h2 h3 hmem hrb ht hrt hpost hmf
  subst ht
  have hrender : renderModel store decode encode parse pureFsw tmplId pm pkg
      alpha mobile baseFiles (pre ++ et :: post) fs0
      = appendPass store
          ((pre ++ et :: post).foldl
            (stepPure ⟨decode, encode, manifest.replaceVars, pm, pkg, alpha,
              mobile⟩)
            (baseFiles.foldl
              (stepPure ⟨decode, encode, manifest.replaceVars, pm, pkg, alpha,
                mobile⟩) fs0))
          manifest.files := by
    simp only [renderModel, h1, h2, h3, runFiles_pure]
  rw [hrender,
    appendPass_no_target store p manifest.files _ hmf,
    lookup_foldl_last _ p dt et pre post _ hrt hpost]

/-- C2 witness: a concrete render where `_base_/common/app.css` (bytes
`[1]`) and `fragment-vanilla/common/app.css` (bytes `[2]`) collide on
`common/app.css`; the final bytes are the template zone's `[2]`. -/
theorem c2_template_zone_overrides_base_witness :
    lookupFS (renderModel
        (fun k => if k = "fragment-vanilla/_cta_manifest_" then some [7]
          else none)
        (fun b => if b = [7] then some "m" else none)
        (fun _ => [])
        (fun s _ => if s = "m" then some ⟨id, []⟩ else none)
        pureFsw "vanilla" PackageManager.Npm "app" false false
        [(["_base_", "common", "app.css"], [1])]
        [(["fragment-vanilla", "common", "app.css"], [2])]
        []).1 ["common", "app.css"] = some [2] := by
  exact c2_template_zone_overrides_base
    (fun k => if k = "fragment-vanilla/_cta_manifest_" then some [7] else none)
    (fun b => if b = [7] then some "m" else none)
    (fun _ => [])
    (fun s _ => if s = "m" then some ⟨id, []⟩ else none)
    "vanilla" PackageManager.Npm "app" false false
    [(["_base_", "common", "app.css"], [1])]
    [(["fragment-vanilla", "common", "app.css"], [2])]
    [] []
    [] [7] "m" ⟨id, []⟩ ["common", "app.css"]
    (["_base_", "common", "app.css"], [1])
    (["fragment-vanilla", "common", "app.css"], [2])
    [1] [2]
    rfl rfl rfl (by simp) rfl rfl rfl (by simp) (by simp)

/-- C6: two manifest extra-file entries `(s1, d)` and `(s2, d)` targeting
the same destination `d` (in manifest order, no other entry touching `d`,
`d` untouched by the earlier passes, all declared assets present) leave
`d` holding the concatenation of the two assets' bytes in manifest order,
and the render succeeds. -/
theorem c6_extra_files_concatenate :
    ∀ (store : String → Option (List Nat)) (decode : List Nat → Option String)
      (encode : String → List Nat) (parse : String → Bool → Option ManifestM)
      (tmplId : String) (pm : PackageManager) (pkg : String)
      (alpha mobile : Bool)
      (baseFiles tmplFiles : List (List String × List Nat))
      (fs0 : FS) (manifest_bytes : List Nat) (manifest_str : String)
      (manifest : ManifestM) (d : RPath) (s1 s2 : String) (b1 b2 : List Nat)
      (pre mid post : List (String × RPath)),
      store ("fragment-" ++ tmplId ++ "/_cta_manifest_") = some manifest_bytes →
      decode manifest_bytes = some manifest_str →
      parse manifest_str mobile = some manifest →
      manifest.files = pre ++ (s1, d) :: mid ++ (s2, d) :: post →
      (∀ sd ∈ manifest.files, (store ("_assets_/" ++ sd.1)).isSome = true) →
      store ("_assets_/" ++ s1) = some b1 →
      store ("_assets_/" ++ s2) = some b2 →
      (∀ sd ∈ pre, sd.2 ≠ d) →
      (∀ sd ∈ mid, sd.2 ≠ d) →
      (∀ sd ∈ post, sd.2 ≠ d) →
      (∀ e ∈ baseFiles ++ tmplFiles, ∀ q dd,
        resolveEntry ⟨decode, encode, manifest.replaceVars, pm, pkg, alpha,
          mobile⟩ e = some (q, dd) → q ≠ d) →
      lookupFS fs0 d = none →
      (renderModel store decode encode parse pureFsw tmplId pm pkg alpha
        mobile baseFiles tmplFiles fs0).2 = none ∧
      lookupFS (renderModel store decode encode parse pureFsw tmplId pm pkg
        alpha mobile baseFiles tmplFiles fs0).1 d = some (b1 ++ b2) := by
  intro store decode encode parse tmplId pm pkg alpha mobile baseFiles
    tmplFiles fs0 manifest_bytes manifest_str manifest d s1 s2 b1 b2 pre mid
    post h1 h2 h3 hfiles hpres hs1 hs2 hpre hmid hpost hnowrite hfs0
  have hrender : renderModel store decode encode parse pureFsw tmplId pm pkg
      alpha mobile baseFiles tmplFiles fs0
      = appendPass store
          (tmplFiles.foldl
            (stepPure ⟨decode, encode, manifest.replaceVars, pm, pkg, alpha,
              mobile⟩)
            (baseFiles.foldl
              (stepPure ⟨decode, encode, manifest.replaceVars, pm, pkg, alpha,
                mobile⟩) fs0))
          manifest.files := by
    simp only [renderModel, h1, h2, h3, runFiles_pure]
  have hfs2 : lookupFS
      (tmplFiles.foldl
        (stepPure ⟨decode, encode, manifest.replaceVars, pm, pkg, alpha,
          mobile⟩)
        (baseFiles.foldl
          (stepPure ⟨decode, encode, manifest.replaceVars, pm, pkg, alpha,
            mobile⟩) fs0)) d = none := by
    rw [lookup_foldl_no_write _ d tmplFiles _
        (fun e he => hnowrite e (List.mem_append_right _ he)),
      lookup_foldl_no_write _ d baseFiles _
        (fun e he => hnowrite e (List.mem_append_left _ he)),
      hfs0]
  rw [hrender, appendPass_eq_fold store manifest.files _ hpres]
  refine ⟨rfl, ?_⟩
  rw [hfiles]
  rw [List.foldl_append, List.foldl_cons, List.foldl_append, List.foldl_cons]
  rw [lookup_fold_appendStep_no_target store d post _ hpost]
  have hstep2 : ∀ fsx : FS, appendStep store fsx (s2, d)
      = fsAppend fsx d b2 := by
    intro fsx
    simp [appendStep, hs2]
  have hstep1 : ∀ fsx : FS, appendStep store fsx (s1, d)
      = fsAppend fsx d b1 := by
    intro fsx
    simp [appendStep, hs1]
  rw [hstep2, lookupFS_fsAppend_self,
    lookup_fold_appendStep_no_target store d mid _ hmid,
    hstep1, lookupFS_fsAppend_self,
    lookup_fold_appendStep_no_target store d pre _ hpre,
    hfs2]
  simp

/-- C6 witness: two extra-file entries appending `[1]` and `[2, 3]` to
`src/assets/icon.png` produce `[1, 2, 3]`. -/
theorem c6_extra_files_concatenate_witness :
    lookupFS (renderModel
        (fun k => if k = "fragment-vanilla/_cta_manifest_" then some [7]
          else if k = "_assets_/icon-a" then some [1]
          else if k = "_assets_/icon-b" then some [2, 3]
          else none)
        (fun b => if b = [7] then some "m" else none)
        (fun _ => [])
        (fun s _ => if s = "m" then
          some ⟨id, [("icon-a", ["src", "assets", "icon.png"]),
                     ("icon-b", ["src", "assets", "icon.png"])]⟩ else none)
        pureFsw "vanilla" PackageManager.Npm "app" false false [] []
        []).1 ["src", "assets", "icon.png"] = some [1, 2, 3] := by
  exact (c6_extra_files_concatenate
    (fun k => if k = "fragment-vanilla/_cta_manifest_" then some [7]
      else if k = "_assets_/icon-a" then some [1]
      else if k = "_assets_/icon-b" then some [2, 3]
      else none)
    (fun b => if b = [7] then some "m" else none)
    (fun _ => [])
    (fun s _ => if s = "m" then
      some ⟨id, [("icon-a", ["src", "assets", "icon.png"]),
                 ("icon-b", ["src", "assets", "icon.png"])]⟩ else none)
    "vanilla" PackageManager.Npm "app" false false [] [] []
    [7] "m"
    ⟨id, [("icon-a", ["src", "assets", "icon.png"]),
          ("icon-b", ["src", "assets", "icon.png"])]⟩
    ["src", "assets", "icon.png"] "icon-a" "icon-b" [1] [2, 3] [] [] []
    rfl rfl rfl rfl (by decide) rfl rfl (by simp) (by simp) (by simp)
    (by simp) rfl).2

lemma appendPass_append (store : String → Option (List Nat)) :
    ∀ (xs ys : List (String × RPath)) (fs : FS),
      appendPass store fs (xs ++ ys)
        = match appendPass store fs xs with
          | (f, none) => appendPass store f ys
          | (f, some e) => (f, some e) := by
  intro xs
  induction xs with
  | nil => intro ys fs; rfl
  | cons sd xs ih =>
    intro ys fs
    obtain ⟨src, dest⟩ := sd
    simp only [List.cons_append, appendPass]
    cases store ("_assets_/" ++ src) with
    | none => rfl
    | some data => exact ih ys (fsAppend fs dest data)

/-- C8: every failure aborts the render immediately with the error and the
disk state reached at that point — no later file of any pass is processed
(the result does not depend on the remaining entries), files already
written remain (the state is exactly the one produced by the successful
steps; no rollback), and there are no retries.  The four conjuncts cover a
missing manifest marker, a manifest parse failure, an arbitrary write
(I/O) failure in the base pass (over an arbitrary failing write primitive
`fsw`), and a missing manifest-declared asset. -/
theorem c8_abort_on_first_failure :
    ∀ (store : String → Option (List Nat)) (decode : List Nat → Option String)
      (encode : String → List Nat) (parse : String → Bool → Option ManifestM)
      (fsw : FS → RPath → List Nat → Except String FS)
      (tmplId : String) (pm : PackageManager) (pkg : String)
      (alpha mobile : Bool)
      (baseFiles tmplFiles : List (List String × List Nat)) (fs0 : FS),
      (store ("fragment-" ++ tmplId ++ "/_cta_manifest_") = none →
        renderModel store decode encode parse fsw tmplId pm pkg alpha mobile
          baseFiles tmplFiles fs0
          = (fs0, some "Failed to get manifest bytes")) ∧
      (∀ (mb : List Nat) (ms : String),
        store ("fragment-" ++ tmplId ++ "/_cta_manifest_") = some mb →
        decode mb = some ms → parse ms mobile = none →
        renderModel store decode encode parse fsw tmplId pm pkg alpha mobile
          baseFiles tmplFiles fs0 = (fs0, some "manifest parse failure")) ∧
      (∀ (mb : List Nat) (ms : String) (manifest : ManifestM)
          (pre post : List (List String × List Nat))
          (bad : List String × List Nat) (fsPre : FS) (e : String),
        store ("fragment-" ++ tmplId ++ "/_cta_manifest_") = some mb →
        decode mb = some ms → parse ms mobile = some manifest →
        baseFiles = pre ++ bad :: post →
        runFiles (writeFileStep fsw ⟨decode, encode, manifest.replaceVars,
          pm, pkg, alpha, mobile⟩) fs0 pre = (fsPre, none) →
        writeFileStep fsw ⟨decode, encode, manifest.replaceVars, pm, pkg,
          alpha, mobile⟩ fsPre bad = .error e →
        renderModel store decode encode parse fsw tmplId pm pkg alpha mobile
          baseFiles tmplFiles fs0 = (fsPre, some e)) ∧
      (∀ (mb : List Nat) (ms : String) (manifest : ManifestM) (fs1 fs2 : FS)
          (pre post : List (String × RPath)) (src : String) (dest : RPath),
        store ("fragment-" ++ tmplId ++ "/_cta_manifest_") = some mb →
        decode mb = some ms → parse ms mobile = some manifest →
        runFiles (writeFileStep fsw ⟨decode, encode, manifest.replaceVars,
          pm, pkg, alpha, mobile⟩) fs0 baseFiles = (fs1, none) →
        runFiles (writeFileStep fsw ⟨decode, encode, manifest.replaceVars,
          pm, pkg, alpha, mobile⟩) fs1 tmplFiles = (fs2, none) →
        manifest.files = pre ++ (src, dest) :: post →
        (∀ sd ∈ pre, (store ("_assets_/" ++ sd.1)).isSome = true) →
        store ("_assets_/" ++ src) = none →
        renderModel store decode encode parse fsw tmplId pm pkg alpha mobile
          baseFiles tmplFiles fs0
          = (pre.foldl (appendStep store) fs2,
             some ("Failed to get asset file bytes: " ++ src))) := by
  intro store decode encode parse fsw tmplId pm pkg alpha mobile baseFiles
    tmplFiles fs0
  refine ⟨?_, ?_, ?_, ?_⟩
  · intro h
    simp only [renderModel, h]
  · intro mb ms hmb hms hp
    simp only [renderModel, hmb, hms, hp]
  · intro mb ms manifest pre post bad fsPre e hmb hms hp hbase hpre hbad
    subst hbase
    simp only [renderModel, hmb, hms, hp]
    have hrun : runFiles (writeFileStep fsw ⟨decode, encode,
        manifest.replaceVars, pm, pkg, alpha, mobile⟩) fs0 (pre ++ bad :: post)
        = (fsPre, some e) := by
      rw [runFiles_append, hpre]
      show runFiles _ fsPre (bad :: post) = (fsPre, some e)
      simp only [runFiles, hbad]
    rw [hrun]
  · intro mb ms manifest fs1 fs2 pre post src dest hmb hms hp hrb hrt hfiles
      hpres hsrc
    simp only [renderModel, hmb, hms, hp, hrb, hrt, hfiles]
    rw [appendPass_append, appendPass_eq_fold store pre _ hpres]
    show appendPass store (pre.foldl (appendStep store) fs2)
        ((src, dest) :: post) = _
    simp only [appendPass, hsrc]

/-- C8 witness: the four failure scenarios at concrete inputs: missing
manifest marker, failing parse, a write primitive failing with
`"disk full"` on the first base entry, and a missing `_assets_/logo`
asset. -/
theorem c8_abort_on_first_failure_witness :
    renderModel (fun _ => none) (fun _ => none) (fun _ => [])
        (fun _ _ => none) pureFsw "x" PackageManager.Npm "a" false false
        [] [] [] = ([], some "Failed to get manifest bytes") ∧
    renderModel (fun _ => some []) (fun _ => some "") (fun _ => [])
        (fun _ _ => none) pureFsw "x" PackageManager.Npm "a" false false
        [] [] [] = ([], some "manifest parse failure") ∧
    renderModel (fun _ => some []) (fun _ => some "") (fun _ => [])
        (fun _ _ => some ⟨id, []⟩) (fun _ _ _ => .error "disk full")
        "x" PackageManager.Npm "a" false false
        [(["_base_", "f.txt"], [9])] [] []
        = ([], some "disk full") ∧
    renderModel
        (fun k => if k = "fragment-x/_cta_manifest_" then some [] else none)
        (fun _ => some "") (fun _ => [])
        (fun _ _ => some ⟨id, [("logo", ["logo.png"])]⟩) pureFsw
        "x" PackageManager.Npm "a" false false [] [] []
        = ([], some "Failed to get asset file bytes: logo") := by
  refine ⟨?_, ?_, ?_, ?_⟩
  · exact (c8_abort_on_first_failure (fun _ => none) (fun _ => none)
      (fun _ => []) (fun _ _ => none) pureFsw "x" PackageManager.Npm "a"
      false false [] [] []).1 rfl
  · exact (c8_abort_on_first_failure (fun _ => some []) (fun _ => some "")
      (fun _ => []) (fun _ _ => none) pureFsw "x" PackageManager.Npm "a"
      false false [] [] []).2.1 [] "" rfl rfl rfl
  · exact (c8_abort_on_first_failure (fun _ => some []) (fun _ => some "")
      (fun _ => []) (fun _ _ => some ⟨id, []⟩) (fun _ _ _ => .error "disk full")
      "x" PackageManager.Npm "a" false false
      [(["_base_", "f.txt"], [9])] [] []).2.2.1 [] "" ⟨id, []⟩ []
      [] (["_base_", "f.txt"], [9]) [] "disk full" rfl rfl rfl rfl rfl rfl
  · exact (c8_abort_on_first_failure
      (fun k => if k = "fragment-x/_cta_manifest_" then some [] else none)
      (fun _ => some "") (fun _ => [])
      (fun _ _ => some ⟨id, [("logo", ["logo.png"])]⟩) pureFsw
      "x" PackageManager.Npm "a" false false [] [] []).2.2.2 [] ""
      ⟨id, [("logo", ["logo.png"])]⟩ [] [] [] [] "logo" ["logo.png"]
      rfl rfl rfl rfl rfl rfl (by simp) rfl
